import Mathlib

/-!
Shallow embedding of the databalancer storage layer: the statement builder
(`Escape`, `CreateTableStatement`, `InsertTableStatement` from
pkg/mysql/statements.go), the MySQL client (`Table.Insert`,
`DescribeDatabase` from pkg/mysql/client.go, `FindOrCreateTable` from the
legacy single-table client), and the logs service (`checkLogSchema`,
`Ingest`, `Query` from pkg/logs/service.go).

Go maps are embedded as association lists (iteration order = list order,
lookup takes the first matching key); Go strings as Lean `String` (the
programs only manipulate them bytewise over ASCII, where Go's bytewise
comparison agrees with `String`'s lexicographic order); the dynamic
`interface{}` values carried by decoded JSON as `GoValue` (the numeric
payload is abstracted to `Int`: every claim depends only on the dynamic
type of a number, never on its value).  Database connections are embedded
as parameters or as recorded call traces: each operation returns, next to
its result, the list of statements it handed to the connection.
-/

/-- Dynamic (`interface{}`) value of a decoded JSON field: a Go string, a
JSON number (decoded by Go as `float64`; payload abstracted), a bool, or
JSON `null` (Go's nil interface). -/
inductive GoValue where
  | str (s : String)
  | num (x : Int)
  | boolean (b : Bool)
  | null
deriving DecidableEq, Repr

/-- A record / log event: field name → dynamic value (`map[string]interface{}`). -/
abbrev Record := List (String × GoValue)

/-- A schema: field name → declared type tag (`map[string]string`). -/
abbrev Schema := List (String × String)

/-- A batch of records (`logs.JSON`). -/
abbrev Logs := List Record

/-- Lexicographic comparison of character lists, matching Go's bytewise
string comparison (UTF-8 byte order agrees with codepoint order). -/
def lexLe : List Char → List Char → Bool
  | [], _ => true
  | _ :: _, [] => false
  | a :: as, b :: bs =>
    if a < b then true
    else if a = b then lexLe as bs
    else false

/-- Go's `<=` on strings, the order `sort.Strings` sorts by. -/
abbrev strLe (a b : String) : Prop := lexLe a.data b.data = true

/-- The escape code Escape assigns to a character, `none` when the
character passes through unchanged (the `switch c` of statements.go). -/
def escapeCode (c : Char) : Option Char :=
  if c = Char.ofNat 0 then some '0'
  else if c = '\n' then some 'n'
  else if c = '\r' then some 'r'
  else if c = '\\' then some '\\'
  else if c = '\'' then some '\''
  else if c = '\"' then some '\"'
  else if c = Char.ofNat 26 then some 'Z'
  else none

/-- What one input character contributes to Escape's output: itself, or a
backslash followed by its escape code. -/
def escapeChar (c : Char) : List Char :=
  match escapeCode c with
  | some e => ['\\', e]
  | none => [c]

/-- `Escape` from statements.go: rewrites NUL, newline, carriage return,
backslash, single quote, double quote and 0x1A, character by character. -/
def Escape (sql : String) : String :=
  ⟨(sql.data.map escapeChar).flatten⟩

/-- The column clause emitted for one schema entry by `CreateTableStatement`:
TEXT for tag "string", INT for tag "int", nothing for any other tag. -/
def columnClause (p : String × String) : Option String :=
  if p.2 = "string" then some ("`" ++ Escape p.1 ++ "` TEXT, ")
  else if p.2 = "int" then some ("`" ++ Escape p.1 ++ "` INT, ")
  else none

/-- The unsorted column-clause list of `CreateTableStatement` (the loop over
the schema map, in iteration order). -/
def tableFields (schema : Schema) : List String :=
  schema.filterMap columnClause

/-- `CreateTableStatement` from statements.go: escaped backquoted
identifiers, column clauses sorted with `sort.Strings`, a non-null
auto-increment `id` primary key first. -/
def CreateTableStatement (name : String) (schema : Schema) : String :=
  let safeTableFields := String.join (List.insertionSort strLe (tableFields schema))
  "CREATE TABLE IF NOT EXISTS `" ++ Escape name ++
    "`(`id` INT NOT NULL AUTO_INCREMENT, " ++ safeTableFields ++
    "PRIMARY KEY(`id`));"

/-- Go's `strings.Join`: the list's elements separated by `sep`. -/
def joinStrings (sep : String) : List String → String
  | [] => ""
  | [a] => a
  | a :: rest => a ++ sep ++ joinStrings sep rest

/-- The value `record[fieldName]` contributes to the argument list: the
stored value when present and non-nil, otherwise nothing (a missing key and
a stored JSON null both read back as Go's nil interface). -/
def nonNullLookup (r : Record) (fieldName : String) : Option GoValue :=
  match List.lookup fieldName r with
  | some GoValue.null => none
  | some v => some v
  | none => none

/-- The sorted, escaped column list of `InsertTableStatement`. -/
def insertFieldNames (schema : Schema) : List String :=
  List.insertionSort strLe (schema.map (fun p => Escape p.1))

/-- The arguments one record contributes: its non-nil values looked up
under the sorted escaped field names, in that order (the inner loop of
`InsertTableStatement`). -/
def recordArgs (schema : Schema) (r : Record) : List GoValue :=
  (insertFieldNames schema).filterMap (fun f => nonNullLookup r f)

/-- `InsertTableStatement` from statements.go: one `?` bindvar per schema
field, one bindvar group per record, and for each record the non-nil values
looked up under the sorted escaped field names, appended in that order. -/
def InsertTableStatement (name : String) (schema : Schema) (records : Logs) :
    String × List GoValue :=
  let bindvars := schema.map (fun _ => "?")
  let fieldNames := insertFieldNames schema
  let safeTableFields := "`" ++ joinStrings "`, `" fieldNames ++ "`"
  let bindvarString := "(" ++ joinStrings ", " bindvars ++ ")"
  let valueBindvars := records.map (fun _ => bindvarString)
  let args := records.flatMap (recordArgs schema)
  let valuePlaceholders := joinStrings ", " valueBindvars
  ("INSERT INTO `" ++ Escape name ++ "`(" ++ safeTableFields ++ ") VALUES " ++
    valuePlaceholders ++ ";", args)

/-- Outcome of `checkLogSchema`: nil error, a non-nil error, or a runtime
panic raised by an unchecked type assertion (`value.(string)` /
`value.(float64)`). -/
inductive CheckResult where
  | ok
  | err (msg : String)
  | panicked
deriving DecidableEq, Repr

/-- One iteration of `checkLogSchema`'s inner loop (service.go): look the
field up in the schema, reject an undeclared field or an unsupported tag,
and log the value through a type assertion that panics when the dynamic
type does not match the tag. -/
def checkField (schema : Schema) (field : String) (value : GoValue) : CheckResult :=
  match List.lookup field schema with
  | none => .err ("field " ++ field ++ " was not specified in the schema")
  | some columnType =>
    if columnType = "string" then
      match value with
      | .str _ => .ok
      | _ => .panicked
    else if columnType = "int" then
      match value with
      | .num _ => .ok
      | _ => .panicked
    else
      .err ("Unsupported data type in log for the field " ++ field ++ ": " ++ columnType)

/-- `checkLogSchema`'s inner loop over one record's fields, stopping at the
first error or panic. -/
def checkFields (schema : Schema) : List (String × GoValue) → CheckResult
  | [] => .ok
  | (f, v) :: rest =>
    match checkField schema f v with
    | .ok => checkFields schema rest
    | r => r

/-- `checkLogSchema` from service.go: validates every record of the batch
against the schema, stopping at the first error or panic. -/
def checkLogSchema (schema : Schema) : Logs → CheckResult
  | [] => .ok
  | r :: rest =>
    match checkFields schema r with
    | .ok => checkLogSchema schema rest
    | res => res

/-- What `Service.Ingest` returns: nil, a (wrapped) validation error, or
the panic escaping from `checkLogSchema`. -/
inductive IngestResult where
  | ok
  | validationError (msg : String)
  | panicked
deriving DecidableEq, Repr

/-- `true` exactly on the `validationError` constructor. -/
def isValidationError : IngestResult → Bool
  | .validationError _ => true
  | _ => false

/-- Result of `Service.Ingest` together with the database calls it made:
the `CreateTable` calls and the `Insert` calls, in order.  The database
client is the always-succeeding mock of service_test.go, so the trace
records exactly which I/O the service requests. -/
structure IngestTrace where
  result : IngestResult
  createCalls : List (String × Schema)
  insertCalls : List Logs
deriving DecidableEq, Repr

/-- `Service.Ingest` from service.go: validate the whole batch first; only
on success call `db.CreateTable(family, schema)` and then
`table.Insert(logs)` (no empty-batch guard in this revision). -/
def Ingest (family : String) (schema : Schema) (logs : Logs) : IngestTrace :=
  match checkLogSchema schema logs with
  | .err m =>
    ⟨.validationError ("validating " ++ family ++ " logs against schema: " ++ m), [], []⟩
  | .panicked => ⟨.panicked, [], []⟩
  | .ok => ⟨.ok, [(family, schema)], [logs]⟩

/-- The dynamic type of the one statement `sqlparser.Parse` returns on
success; `Service.Query`'s type switch matches `*sqlparser.Select` only. -/
inductive SQLKind where
  | selectKind
  | unionKind
  | insertKind
  | updateKind
  | deleteKind
  | ddlKind
  | otherKind
deriving DecidableEq, Repr

/-- Whether the parsed statement is a `*sqlparser.Select`. -/
def isSelect : SQLKind → Bool
  | .selectKind => true
  | _ => false

/-- What `Service.Query` returns: rows, a wrapped parse error, the
distinguished `ErrReadOnly`, or a wrapped database error. -/
inductive QueryOutcome where
  | results (rows : Logs)
  | parseError (msg : String)
  | errReadOnly
  | dbError (msg : String)
deriving DecidableEq, Repr

/-- `Service.Query` from service.go, with the external SQL parser and the
database client as parameters: parse, return the wrapped parse error on
failure, forward a `SELECT` to `db.QueryJSON`, and answer anything else
with `ErrReadOnly`.  The second component lists the query strings handed
to the connection. -/
def Query (parse : String → Except String SQLKind)
    (dbQueryJSON : String → Except String Logs) (query : String) :
    QueryOutcome × List String :=
  match parse query with
  | .error e => (.parseError ("parsing query " ++ query ++ ": " ++ e), [])
  | .ok stmt =>
    if isSelect stmt then
      match dbQueryJSON query with
      | .ok results => (.results results, [query])
      | .error e => (.dbError ("querying database client: " ++ e), [query])
    else
      (.errReadOnly, [])

/-- A `mysql.Table` handle (client.go): the table name and the schema the
handle is bound to. -/
structure MySQLTable where
  name : String
  schema : Schema
deriving DecidableEq, Repr

/-- `Table.Insert` from client.go: build the insert statement and hand it,
with its arguments, to the connection's `Exec` — unconditionally, with no
empty-batch guard.  Returns the list of `Exec` calls made. -/
def TableInsert (t : MySQLTable) (logs : Logs) : List (String × List GoValue) :=
  let (insert, args) := InsertTableStatement t.name t.schema logs
  [(insert, args)]

namespace LegacyMySQL

/-- A legacy `mysql.Table` handle (single-table client): the family and
schema the handle is bound to. -/
structure TableHandle where
  family : String
  schema : Schema
deriving DecidableEq, Repr

/-- The legacy `mysql.Client` state: its table cache.  `none` models Go's
nil map (reads find nothing, writes panic); `some m` an initialized map as
an association list whose lookup takes the first match. -/
structure ClientState where
  tables : Option (List (String × TableHandle))
deriving DecidableEq, Repr

/-- `Create` from the legacy client: returns `&Client{DB: db}` — the
`tables` field is left at its zero value, a nil map. -/
def Create : ClientState := ⟨none⟩

/-- Reading `c.tables[family]`: a nil map simply finds nothing. -/
def lookupTable (c : ClientState) (family : String) : Option TableHandle :=
  match c.tables with
  | none => none
  | some m => List.lookup family m

/-- The statement `FindOrCreateTable` prepares and executes on a cache
miss: a fixed `raw_logs` DDL, independent of family and schema. -/
def rawLogsCreate : String :=
  "CREATE TABLE IF NOT EXISTS `raw_logs` (" ++
    "`id` INT NOT NULL AUTO_INCREMENT," ++
    "`family` TEXT," ++
    "`log` TEXT," ++
    "PRIMARY KEY(`id`)" ++
    ");"

/-- Outcome of `FindOrCreateTable`: a table handle, or the runtime panic
of assigning into a nil map. -/
inductive FindOutcome where
  | ok (t : TableHandle)
  | panicked
deriving DecidableEq, Repr

/-- `FindOrCreateTable` from the legacy client: return a cached handle
without touching the database; otherwise execute the fixed `raw_logs`
create statement, build a handle bound to the family and schema, and store
it in `c.tables` — which panics when that map is nil.  Returns the
outcome, the statements executed against the connection, and the new
client state. -/
def FindOrCreateTable (c : ClientState) (family : String) (schema : Schema) :
    FindOutcome × List String × ClientState :=
  match lookupTable c family with
  | some table => (.ok table, [], c)
  | none =>
    match c.tables with
    | none => (.panicked, [rawLogsCreate], c)
    | some m =>
      let table : TableHandle := ⟨family, schema⟩
      (.ok table, [rawLogsCreate], ⟨some ((family, table) :: m)⟩)

end LegacyMySQL

/-- One row of the `information_schema.columns` query issued by
`DescribeDatabase` (client.go): schema, table name, column name,
nullability flag and data type. -/
structure CatalogRow where
  tableSchema : String
  name : String
  column : String
  nullable : String
  datatype : String
deriving DecidableEq, Repr

/-- A column entry of a table description: the `column` map built by
`DescribeDatabase`'s loop, with the nullable flag set exactly on "YES". -/
structure ColumnDesc where
  name : String
  nullable : Bool
  type : String
deriving DecidableEq, Repr

/-- The column map `DescribeDatabase` builds from one catalog row. -/
def mkColumn (r : CatalogRow) : ColumnDesc :=
  ⟨r.column, r.nullable = "YES", r.datatype⟩

/-- The grouping loop of `DescribeDatabase` once a current table is open:
a row with the current table's name appends its column to the current
table, any other row closes the current table and opens a new one. -/
def groupGo (cur : String) (cols : List ColumnDesc) :
    List CatalogRow → List (String × List ColumnDesc)
  | [] => [(cur, cols)]
  | r :: rest =>
    if r.name = cur then groupGo cur (cols ++ [mkColumn r]) rest
    else (cur, cols) :: groupGo r.name [mkColumn r] rest

/-- `DescribeDatabase`'s loop over the catalog rows (client.go): the first
row never matches the nil current table, so it opens the first group. -/
def DescribeDatabase : List CatalogRow → List (String × List ColumnDesc)
  | [] => []
  | r :: rest => groupGo r.name [mkColumn r] rest

/-- The seven characters the `switch` of `Escape` rewrites. -/
def escapedChars : List Char :=
  [Char.ofNat 0, '\n', '\r', '\\', '\'', '\"', Char.ofNat 26]

/-- How often a character occurs in a string. -/
def countChar (c : Char) (s : String) : Nat :=
  s.data.count c

/-- The characters of a statement that sit outside backquoted identifier
regions (a MySQL parser treats a `;` inside backquotes as part of an
identifier, never as a statement terminator). -/
def outsideBackquotes : Bool → List Char → List Char
  | _, [] => []
  | inQuote, c :: rest =>
    if c = '`' then outsideBackquotes (!inQuote) rest
    else if inQuote then outsideBackquotes inQuote rest
    else c :: outsideBackquotes inQuote rest

/-- A statement whose every statement-terminating (outside backquotes)
semicolon is its final character: no executable secondary statement can
follow an interior semicolon. -/
def semicolonOnlyTerminal (s : String) : Bool :=
  !(outsideBackquotes false s.data.dropLast).contains ';'

/-- A field that `checkLogSchema` rejects: absent from the schema, or
declared with a tag other than `string`/`int`. -/
def unsupportedField (schema : Schema) (f : String) : Bool :=
  match List.lookup f schema with
  | none => true
  | some t => if t = "string" then false else if t = "int" then false else true

/-- Whether some record of the batch has a field `checkLogSchema` rejects. -/
def hasBadField (schema : Schema) (logs : Logs) : Bool :=
  logs.any (fun r => r.any (fun p => unsupportedField schema p.1))

/-- Whether a field's dynamic value matches its declared tag, so that the
logging type assertions of `checkLogSchema` cannot panic on it. -/
def wellTypedValue (schema : Schema) (f : String) (v : GoValue) : Bool :=
  match List.lookup f schema with
  | some t =>
    if t = "string" then (match v with | .str _ => true | _ => false)
    else if t = "int" then (match v with | .num _ => true | _ => false)
    else true
  | none => true

/-- Whether every declared `string`/`int` field of the batch carries a
value of the matching dynamic type. -/
def wellTyped (schema : Schema) (logs : Logs) : Bool :=
  logs.all (fun r => r.all (fun p => wellTypedValue schema p.1 p.2))

/-- How many schema fields of the sorted column list a record populates
with a non-nil value. -/
def populatedCount (schema : Schema) (r : Record) : Nat :=
  ((insertFieldNames schema).filter (fun f => (nonNullLookup r f).isSome)).length

/-- The strict version of Go's string order. -/
def strLt (a b : String) : Prop :=
  strLe a b ∧ a ≠ b

theorem lexLe_cons_self (a : Char) (as bs : List Char) :
    lexLe (a :: as) (a :: bs) = lexLe as bs := by
  simp [lexLe, lt_irrefl]

theorem lexLe_total : ∀ as bs : List Char, lexLe as bs = true ∨ lexLe bs as = true
  | [], _ => Or.inl rfl
  | _ :: _, [] => Or.inr rfl
  | a :: as, b :: bs => by
    rcases lt_trichotomy a b with h | h | h
    · left; simp [lexLe, h]
    · subst h
      rcases lexLe_total as bs with ih | ih
      · left; simp [lexLe, ih]
      · right; simp [lexLe, ih]
    · right; simp [lexLe, h]

theorem lexLe_trans : ∀ {as bs cs : List Char},
    lexLe as bs = true → lexLe bs cs = true → lexLe as cs = true
  | [], _, _, _, _ => rfl
  | _ :: _, [], _, hab, _ => by simp [lexLe] at hab
  | _ :: _, _ :: _, [], _, hbc => by simp [lexLe] at hbc
  | a :: as, b :: bs, c :: cs, hab, hbc => by
    rcases lt_trichotomy a b with h₁ | h₁ | h₁
    · rcases lt_trichotomy b c with h₂ | h₂ | h₂
      · simp [lexLe, lt_trans h₁ h₂]
      · subst h₂; simp [lexLe, h₁]
      · rw [show lexLe (b :: bs) (c :: cs) =
            false by simp [lexLe, lt_asymm h₂, ne_of_gt h₂]] at hbc
        exact absurd hbc (by simp)
    · subst h₁
      rcases lt_trichotomy a c with h₂ | h₂ | h₂
      · simp [lexLe, h₂]
      · subst h₂
        rw [lexLe_cons_self] at hab hbc ⊢
        exact lexLe_trans hab hbc
      · rw [show lexLe (a :: bs) (c :: cs) =
            false by simp [lexLe, lt_asymm h₂, ne_of_gt h₂]] at hbc
        exact absurd hbc (by simp)
    · rw [show lexLe (a :: as) (b :: bs) =
          false by simp [lexLe, lt_asymm h₁, ne_of_gt h₁]] at hab
      exact absurd hab (by simp)

theorem lexLe_antisymm : ∀ {as bs : List Char},
    lexLe as bs = true → lexLe bs as = true → as = bs
  | [], [], _, _ => rfl
  | [], _ :: _, _, hba => by simp [lexLe] at hba
  | _ :: _, [], hab, _ => by simp [lexLe] at hab
  | a :: as, b :: bs, hab, hba => by
    rcases lt_trichotomy a b with h | h | h
    · rw [show lexLe (b :: bs) (a :: as) =
          false by simp [lexLe, lt_asymm h, ne_of_gt h]] at hba
      exact absurd hba (by simp)
    · subst h
      rw [lexLe_cons_self] at hab hba
      exact congrArg (a :: ·) (lexLe_antisymm hab hba)
    · rw [show lexLe (a :: as) (b :: bs) =
          false by simp [lexLe, lt_asymm h, ne_of_gt h]] at hab
      exact absurd hab (by simp)

instance : IsTotal String strLe := ⟨fun a b => lexLe_total a.data b.data⟩

instance : IsTrans String strLe := ⟨fun _ _ _ hab hbc => lexLe_trans hab hbc⟩

instance : IsAntisymm String strLe :=
  ⟨fun a b hab hba => by
    cases a; cases b
    exact congrArg String.mk (lexLe_antisymm hab hba)⟩

instance : IsRefl String strLe :=
  ⟨fun a => by
    rcases lexLe_total a.data a.data with h | h <;> exact h⟩

example : CreateTableStatement "dog_registry"
    [("name", "string"), ("breed", "string"), ("weight", "int")] =
    "CREATE TABLE IF NOT EXISTS `dog_registry`(`id` INT NOT NULL AUTO_INCREMENT, `breed` TEXT, `name` TEXT, `weight` INT, PRIMARY KEY(`id`));" := by
  decide

example : CreateTableStatement "cat_registry" [] =
    "CREATE TABLE IF NOT EXISTS `cat_registry`(`id` INT NOT NULL AUTO_INCREMENT, PRIMARY KEY(`id`));" := by
  decide

example : CreateTableStatement "criminal_registry"
    [("name", "string"), ("test; DROP TABLE users", "test; DROP TABLE users")] =
    "CREATE TABLE IF NOT EXISTS `criminal_registry`(`id` INT NOT NULL AUTO_INCREMENT, `name` TEXT, PRIMARY KEY(`id`));" := by
  decide

example : InsertTableStatement "dog_registry"
    [("name", "string"), ("breed", "string"), ("weight", "int")]
    [[("name", .str "max"), ("breed", .str "chihuahua"), ("weight", .num 3)],
     [("name", .str "spot"), ("breed", .str "husky"), ("weight", .num 130)],
     [("name", .str "spike"), ("breed", .str "bulldog"), ("weight", .num 80)]] =
    ("INSERT INTO `dog_registry`(`breed`, `name`, `weight`) VALUES (?, ?, ?), (?, ?, ?), (?, ?, ?);",
     [.str "chihuahua", .str "max", .num 3,
      .str "husky", .str "spot", .num 130,
      .str "bulldog", .str "spike", .num 80]) := by
  decide

theorem escapeChar_eq_self_iff : ∀ c : Char, escapeChar c = [c] ↔ c ∉ escapedChars := by
  intro c
  simp only [escapeChar, escapeCode]
  split_ifs with h1 h2 h3 h4 h5 h6 h7 <;> simp_all [escapedChars]

/-- C6: `checkLogSchema` is not total: a field declared in the schema with
a supported tag whose value has a mismatched dynamic type (an `int` field
holding a string, a `string` field holding a number or null) makes the
unchecked type assertion panic instead of producing a validation error,
and the panic escapes through `Ingest`. -/
theorem check_log_schema_panics_on_type_mismatch :
    checkLogSchema [("age", "int")] [[("age", GoValue.str "ten")]] = CheckResult.panicked ∧
    checkLogSchema [("name", "string")] [[("name", GoValue.num 5)]] = CheckResult.panicked ∧
    checkLogSchema [("name", "string")] [[("name", GoValue.null)]] = CheckResult.panicked ∧
    Ingest "pets" [("age", "int")] [[("age", GoValue.str "ten")]] =
      ⟨IngestResult.panicked, [], []⟩ := by
  decide

/-- C4: `InsertTableStatement` on an empty batch yields a statement with
zero value groups (no `?` placeholder at all, a bare `VALUES ;` tail) —
but `Table.Insert` does not no-op on an empty record sequence: it hands
exactly that degenerate statement to the connection's `Exec`. -/
theorem table_insert_empty_batch_reaches_exec :
    InsertTableStatement "dog_registry"
      [("breed", "string"), ("name", "string"), ("weight", "int")] [] =
      ("INSERT INTO `dog_registry`(`breed`, `name`, `weight`) VALUES ;", []) ∧
    countChar '?'
      (InsertTableStatement "dog_registry"
        [("breed", "string"), ("name", "string"), ("weight", "int")] []).1 = 0 ∧
    TableInsert ⟨"dog_registry", [("breed", "string"), ("name", "string"), ("weight", "int")]⟩ [] =
      [("INSERT INTO `dog_registry`(`breed`, `name`, `weight`) VALUES ;", [])] := by
  decide

/-- C1 counterexample: a batch whose record contains the undeclared field
`age` but whose declared `int` field `weight` carries a string value that
the validation loop reaches first: `Ingest` panics instead of returning a
validation error (it still performs no I/O). -/
theorem ingest_validation_counterexample :
    hasBadField [("weight", "int")]
      [[("weight", GoValue.str "heavy"), ("age", GoValue.num 10)]] = true ∧
    Ingest "pets" [("weight", "int")]
      [[("weight", GoValue.str "heavy"), ("age", GoValue.num 10)]] =
      ⟨IngestResult.panicked, [], []⟩ ∧
    isValidationError (Ingest "pets" [("weight", "int")]
      [[("weight", GoValue.str "heavy"), ("age", GoValue.num 10)]]).result = false := by
  decide

/-- C3 counterexample: two records populating the identical subset `{a}`
of schema `{a, b}`: the statement still carries a full two-slot
placeholder group per record (four `?`) while only two arguments are
collected — equal populated subsets do not align argument count with
placeholder count. -/
theorem insert_args_placeholder_counterexample :
    InsertTableStatement "t" [("a", "string"), ("b", "string")]
      [[("a", GoValue.str "x")], [("a", GoValue.str "y")]] =
      ("INSERT INTO `t`(`a`, `b`) VALUES (?, ?), (?, ?);",
       [GoValue.str "x", GoValue.str "y"]) ∧
    (insertFieldNames [("a", "string"), ("b", "string")]).filter
      (fun f => (nonNullLookup [("a", GoValue.str "x")] f).isSome) = ["a"] ∧
    (insertFieldNames [("a", "string"), ("b", "string")]).filter
      (fun f => (nonNullLookup [("a", GoValue.str "y")] f).isSome) = ["a"] ∧
    countChar '?' (InsertTableStatement "t" [("a", "string"), ("b", "string")]
      [[("a", GoValue.str "x")], [("a", GoValue.str "y")]]).1 = 4 ∧
    (InsertTableStatement "t" [("a", "string"), ("b", "string")]
      [[("a", GoValue.str "x")], [("a", GoValue.str "y")]]).2.length = 2 := by
  decide

/-- C5 counterexample: on a cache miss against a client built by `Create`
(whose `tables` map is nil), `FindOrCreateTable` executes the fixed
`raw_logs` DDL — not `CreateTableStatement(family, schema)` — and then
panics assigning into the nil map instead of storing the handle. -/
theorem find_or_create_table_counterexample :
    LegacyMySQL.FindOrCreateTable LegacyMySQL.Create "dog_registry" [("name", "string")] =
      (LegacyMySQL.FindOutcome.panicked, [LegacyMySQL.rawLogsCreate], LegacyMySQL.Create) ∧
    LegacyMySQL.rawLogsCreate ≠ CreateTableStatement "dog_registry" [("name", "string")] := by
  decide

/-- C7 counterexample: for schema fields `a` and `aA` (both `string`), the
clause of `aA` is emitted before the clause of `a` because `sort.Strings`
orders the full clause strings (and the backquote after `a` compares above
`A`), while ascending order of escaped field name would put `a` first. -/
theorem create_table_clause_order_counterexample :
    CreateTableStatement "t" [("a", "string"), ("aA", "string")] =
      "CREATE TABLE IF NOT EXISTS `t`(`id` INT NOT NULL AUTO_INCREMENT, `aA` TEXT, `a` TEXT, PRIMARY KEY(`id`));" ∧
    List.insertionSort strLe (tableFields [("a", "string"), ("aA", "string")]) =
      ["`aA` TEXT, ", "`a` TEXT, "] ∧
    strLt (Escape "a") (Escape "aA") := by
  constructor
  · decide
  · constructor
    · decide
    · exact ⟨by decide, by decide⟩

/-- C8: `escapeChar` (hence `Escape`) rewrites exactly NUL, newline,
carriage return, backslash, single quote, double quote and 0x1A; the
identifier `test; DROP TABLE users` (none of whose characters is in that
set) passes through `Escape` unchanged, and the CREATE TABLE statements
built from schemas containing that identifier carry no statement-level
semicolon before the final one, so no executable secondary statement is
embedded: with the identifier as an unsupported type tag the field is
dropped entirely (the repository's own test vector), and with tag
`string` the semicolon stays confined between identifier backquotes. -/
theorem escape_charset_and_neutralization :
    (∀ c : Char, escapeChar c = [c] ↔ c ∉ escapedChars) ∧
    Escape "test; DROP TABLE users" = "test; DROP TABLE users" ∧
    CreateTableStatement "criminal_registry"
      [("name", "string"), ("test; DROP TABLE users", "test; DROP TABLE users")] =
      "CREATE TABLE IF NOT EXISTS `criminal_registry`(`id` INT NOT NULL AUTO_INCREMENT, `name` TEXT, PRIMARY KEY(`id`));" ∧
    semicolonOnlyTerminal (CreateTableStatement "criminal_registry"
      [("name", "string"), ("test; DROP TABLE users", "test; DROP TABLE users")]) = true ∧
    semicolonOnlyTerminal (CreateTableStatement "t"
      [("test; DROP TABLE users", "string")]) = true :=
  ⟨escapeChar_eq_self_iff, by decide, by decide, by decide, by decide⟩

/-- C2: whenever the SQL parser accepts the query string but the parsed
statement is not a `*sqlparser.Select` (DML, DDL or any other statement
kind), `Service.Query` returns the distinguished `ErrReadOnly` — a
different constructor from a parse error and from an empty result — and
forwards nothing to the connection; in general only a query that parses
as a single SELECT is ever forwarded. -/
theorem query_read_only_violation
    (parse : String → Except String SQLKind)
    (dbQueryJSON : String → Except String Logs) (query : String) (stmt : SQLKind)
    (hparse : parse query = Except.ok stmt) (hsel : isSelect stmt = false) :
    Query parse dbQueryJSON query = (QueryOutcome.errReadOnly, []) ∧
    (∀ e, QueryOutcome.errReadOnly ≠ QueryOutcome.parseError e) ∧
    (∀ rows, QueryOutcome.errReadOnly ≠ QueryOutcome.results rows) ∧
    (∀ (parse2 : String → Except String SQLKind) dbq2 q2,
      (Query parse2 dbq2 q2).2 ≠ [] →
      ∃ s, parse2 q2 = Except.ok s ∧ isSelect s = true ∧ (Query parse2 dbq2 q2).2 = [q2]) := by
  refine ⟨?_, fun e h => QueryOutcome.noConfusion h,
    fun rows h => QueryOutcome.noConfusion h, ?_⟩
  · unfold Query
    rw [hparse]
    simp [hsel]
  · intro parse2 dbq2 q2 hne
    unfold Query at hne ⊢
    cases hp : parse2 q2 with
    | error e => rw [hp] at hne; simp at hne
    | ok s =>
      rw [hp] at hne
      cases hs : isSelect s with
      | false => simp [hs] at hne
      | true =>
        refine ⟨s, rfl, hs, ?_⟩
        simp only [hs, if_true]
        cases dbq2 q2 <;> rfl

/-- Witness for C2 at a concrete non-SELECT input. -/
theorem query_read_only_violation_witness :
    Query (fun _ => Except.ok SQLKind.insertKind) (fun _ => Except.ok [])
      "INSERT INTO dog_registry(name) VALUES('x');" = (QueryOutcome.errReadOnly, []) :=
  (query_read_only_violation (fun _ => Except.ok SQLKind.insertKind)
    (fun _ => Except.ok []) "INSERT INTO dog_registry(name) VALUES('x');"
    SQLKind.insertKind rfl rfl).1

theorem checkField_ok_not_bad {schema : Schema} {f : String} {v : GoValue}
    (h : checkField schema f v = .ok) : unsupportedField schema f = false := by
  unfold checkField at h
  unfold unsupportedField
  cases hl : List.lookup f schema with
  | none => simp only [hl] at h; exact absurd h (by simp)
  | some t =>
    simp only [hl] at h ⊢
    by_cases hs : t = "string"
    · simp [hs]
    · by_cases hi : t = "int"
      · simp [hs, hi]
      · simp only [if_neg hs, if_neg hi] at h
        exact absurd h (by simp)

theorem checkFields_ok {schema : Schema} :
    ∀ {r : List (String × GoValue)}, checkFields schema r = .ok →
      ∀ p ∈ r, unsupportedField schema p.1 = false
  | [], _, p, hp => absurd hp (List.not_mem_nil p)
  | (f, v) :: rest, h, p, hp => by
    unfold checkFields at h
    cases hc : checkField schema f v with
    | ok =>
      rw [hc] at h
      rcases List.mem_cons.mp hp with he | hm
      · rw [he]; exact checkField_ok_not_bad hc
      · exact checkFields_ok h p hm
    | err m => rw [hc] at h; exact absurd h (by simp)
    | panicked => rw [hc] at h; exact absurd h (by simp)

theorem checkLogSchema_ok {schema : Schema} :
    ∀ {logs : Logs}, checkLogSchema schema logs = .ok → hasBadField schema logs = false
  | [], _ => rfl
  | r :: rest, h => by
    unfold checkLogSchema at h
    cases hc : checkFields schema r with
    | ok =>
      rw [hc] at h
      have hrest := checkLogSchema_ok h
      simp only [hasBadField, List.any_cons, Bool.or_eq_false_iff] at hrest ⊢
      exact ⟨List.any_eq_false.mpr (fun p hp => by
        simp [checkFields_ok hc p hp]), hrest⟩
    | err m => rw [hc] at h; exact absurd h (by simp)
    | panicked => rw [hc] at h; exact absurd h (by simp)

theorem checkField_no_panic {schema : Schema} {f : String} {v : GoValue}
    (h : wellTypedValue schema f v = true) : checkField schema f v ≠ .panicked := by
  unfold wellTypedValue at h
  unfold checkField
  cases hl : List.lookup f schema with
  | none => simp only [hl]; simp
  | some t =>
    simp only [hl] at h ⊢
    by_cases hs : t = "string"
    · simp only [if_pos hs] at h ⊢
      cases v <;> simp_all
    · by_cases hi : t = "int"
      · simp only [if_neg hs, if_pos hi] at h ⊢
        cases v <;> simp_all
      · simp only [if_neg hs, if_neg hi]
        simp

theorem checkFields_no_panic {schema : Schema} :
    ∀ {r : List (String × GoValue)},
      (∀ p ∈ r, wellTypedValue schema p.1 p.2 = true) → checkFields schema r ≠ .panicked
  | [], _ => by unfold checkFields; simp
  | (f, v) :: rest, h => by
    unfold checkFields
    cases hc : checkField schema f v with
    | ok => exact checkFields_no_panic (fun p hp => h p (List.mem_cons_of_mem _ hp))
    | err m => simp
    | panicked =>
      exact absurd hc (checkField_no_panic (h (f, v) (List.mem_cons_self _ _)))

theorem checkLogSchema_no_panic {schema : Schema} :
    ∀ {logs : Logs}, wellTyped schema logs = true → checkLogSchema schema logs ≠ .panicked
  | [], _ => by unfold checkLogSchema; simp
  | r :: rest, h => by
    simp only [wellTyped, List.all_cons, Bool.and_eq_true] at h
    unfold checkLogSchema
    cases hc : checkFields schema r with
    | ok =>
      exact checkLogSchema_no_panic (by
        simp only [wellTyped]; exact h.2)
    | err m => simp
    | panicked =>
      exact absurd hc (checkFields_no_panic (fun p hp => by
        have := List.all_eq_true.mp h.1 p hp
        exact this))

/-- C1 (amended): whenever some record of the batch contains a field
absent from the schema or declared with a tag other than `string`/`int`,
`Ingest` performs no I/O at all — neither the table-creation call nor the
insert call is ever invoked, for the whole batch — and it either returns
a validation error or panics on an earlier-visited declared field whose
value's dynamic type mismatches its tag; when every declared field's
value matches its tag, it returns the validation error. -/
theorem ingest_validation_all_or_nothing (family : String) (schema : Schema) (logs : Logs)
    (hbad : hasBadField schema logs = true) :
    (Ingest family schema logs).createCalls = [] ∧
    (Ingest family schema logs).insertCalls = [] ∧
    ((Ingest family schema logs).result = IngestResult.panicked ∨
      isValidationError (Ingest family schema logs).result = true) ∧
    (wellTyped schema logs = true →
      isValidationError (Ingest family schema logs).result = true) := by
  cases hc : checkLogSchema schema logs with
  | ok => rw [checkLogSchema_ok hc] at hbad; exact Bool.noConfusion hbad
  | err m =>
    unfold Ingest
    rw [hc]
    exact ⟨rfl, rfl, Or.inr rfl, fun _ => rfl⟩
  | panicked =>
    unfold Ingest
    rw [hc]
    exact ⟨rfl, rfl, Or.inl rfl, fun hwt => absurd hc (checkLogSchema_no_panic hwt)⟩

/-- Witness for C1 at the spec's own example: `{name:"max", weight:3, age:10}`
against `{name:string, breed:string, weight:int}` (field `age` undeclared). -/
theorem ingest_validation_all_or_nothing_witness :
    (Ingest "dog_registry" [("name", "string"), ("breed", "string"), ("weight", "int")]
      [[("name", GoValue.str "max"), ("weight", GoValue.num 3), ("age", GoValue.num 10)]]).createCalls = [] ∧
    (Ingest "dog_registry" [("name", "string"), ("breed", "string"), ("weight", "int")]
      [[("name", GoValue.str "max"), ("weight", GoValue.num 3), ("age", GoValue.num 10)]]).insertCalls = [] ∧
    isValidationError (Ingest "dog_registry"
      [("name", "string"), ("breed", "string"), ("weight", "int")]
      [[("name", GoValue.str "max"), ("weight", GoValue.num 3), ("age", GoValue.num 10)]]).result = true :=
  have h := ingest_validation_all_or_nothing "dog_registry"
    [("name", "string"), ("breed", "string"), ("weight", "int")]
    [[("name", GoValue.str "max"), ("weight", GoValue.num 3), ("age", GoValue.num 10)]]
    (by decide)
  ⟨h.1, h.2.1, h.2.2.2 (by decide)⟩

/-- C5 (amended): `FindOrCreateTable` on a cache hit returns the cached
handle without issuing any database call and leaves the client unchanged.
On a cache miss it executes the fixed, schema-independent `raw_logs`
CREATE TABLE IF NOT EXISTS statement (not `CreateTableStatement(family,
schema)`): if the cache map was initialized it then stores a handle bound
to that family and schema and returns it, but on a client produced by
`Create` — whose `tables` map is nil — the store panics instead. -/
theorem find_or_create_table_behavior (c : LegacyMySQL.ClientState)
    (family : String) (schema : Schema) :
    (∀ t, LegacyMySQL.lookupTable c family = some t →
      LegacyMySQL.FindOrCreateTable c family schema = (.ok t, [], c)) ∧
    (∀ m, c.tables = some m → LegacyMySQL.lookupTable c family = none →
      LegacyMySQL.FindOrCreateTable c family schema =
        (.ok ⟨family, schema⟩, [LegacyMySQL.rawLogsCreate],
         ⟨some ((family, ⟨family, schema⟩) :: m)⟩)) ∧
    (c.tables = none →
      LegacyMySQL.FindOrCreateTable c family schema =
        (.panicked, [LegacyMySQL.rawLogsCreate], c)) ∧
    LegacyMySQL.Create.tables = none := by
  refine ⟨?_, ?_, ?_, rfl⟩
  · intro t ht
    unfold LegacyMySQL.FindOrCreateTable
    rw [ht]
  · intro m hm hl
    unfold LegacyMySQL.FindOrCreateTable
    rw [hl, hm]
  · intro hn
    have hl : LegacyMySQL.lookupTable c family = none := by
      unfold LegacyMySQL.lookupTable
      rw [hn]
    unfold LegacyMySQL.FindOrCreateTable
    rw [hl, hn]

/-- Witness for C5: the nil-map panic path on a client fresh from `Create`. -/
theorem find_or_create_table_behavior_witness :
    LegacyMySQL.FindOrCreateTable LegacyMySQL.Create "dog_registry" [("name", "string")] =
      (LegacyMySQL.FindOutcome.panicked, [LegacyMySQL.rawLogsCreate], LegacyMySQL.Create) :=
  (find_or_create_table_behavior LegacyMySQL.Create "dog_registry"
    [("name", "string")]).2.2.1 rfl

/-- C7 (amended): the column clauses of `CreateTableStatement` appear in
ascending bytewise lexicographic order of the full clause string (the
backquoted escaped field name followed by its column type) — an order
that can differ from ascending order of the escaped field name itself
when one escaped name is a proper prefix of another; the output is a
deterministic function of the schema's entries, identical for any two
iteration orders of the schema map; and the non-null auto-increment `id`
primary key column always comes first, before every field clause. -/
theorem create_table_clause_order (name : String) (schema schema2 : Schema)
    (hperm : schema.Perm schema2) :
    List.Sorted strLe (List.insertionSort strLe (tableFields schema)) ∧
    CreateTableStatement name schema = CreateTableStatement name schema2 ∧
    CreateTableStatement name schema =
      "CREATE TABLE IF NOT EXISTS `" ++ Escape name ++
        "`(`id` INT NOT NULL AUTO_INCREMENT, " ++
        String.join (List.insertionSort strLe (tableFields schema)) ++
        "PRIMARY KEY(`id`));" := by
  refine ⟨List.sorted_insertionSort strLe _, ?_, rfl⟩
  have hp : List.Perm (tableFields schema) (tableFields schema2) :=
    hperm.filterMap columnClause
  have heq : List.insertionSort strLe (tableFields schema) =
      List.insertionSort strLe (tableFields schema2) :=
    List.eq_of_perm_of_sorted
      ((List.perm_insertionSort _ _).trans (hp.trans (List.perm_insertionSort _ _).symm))
      (List.sorted_insertionSort _ _) (List.sorted_insertionSort _ _)
  unfold CreateTableStatement
  rw [heq]

/-- Witness for C7 at a two-field schema and its reversal. -/
theorem create_table_clause_order_witness :
    CreateTableStatement "dog_registry" [("name", "string"), ("weight", "int")] =
      CreateTableStatement "dog_registry" [("weight", "int"), ("name", "string")] :=
  (create_table_clause_order "dog_registry" [("name", "string"), ("weight", "int")]
    [("weight", "int"), ("name", "string")] (by decide)).2.1

theorem escapeCode_ne_q {c e : Char} (h : escapeCode c = some e) : e ≠ '?' := by
  unfold escapeCode at h
  split_ifs at h <;> simp_all <;> rw [← h] <;> decide

theorem countQ_escapeChar (c : Char) :
    (escapeChar c).count '?' = if c = '?' then 1 else 0 := by
  by_cases hq : c = '?'
  · subst hq; decide
  · rw [if_neg hq]
    unfold escapeChar
    cases he : escapeCode c with
    | none => simp [List.count_cons, List.count_nil, hq]
    | some e =>
      have h1 : e ≠ '?' := escapeCode_ne_q he
      have h2 : ('\\' : Char) ≠ '?' := by decide
      simp [List.count_cons, List.count_nil, h1, h2]

theorem countQ_escape_list : ∀ l : List Char,
    ((l.map escapeChar).flatten).count '?' = l.count '?'
  | [] => rfl
  | c :: cs => by
    simp only [List.map_cons, List.flatten_cons, List.count_append,
      countQ_escape_list cs, List.count_cons, countQ_escapeChar]
    by_cases h : c = '?'
    · simp [h]; omega
    · simp [h]

theorem countQ_Escape (s : String) : countChar '?' (Escape s) = countChar '?' s :=
  countQ_escape_list s.data

theorem countChar_append (c : Char) (a b : String) :
    countChar c (a ++ b) = countChar c a + countChar c b := by
  simp [countChar, String.data_append, List.count_append]

theorem countChar_join_zero (c : Char) (sep : String) (hsep : countChar c sep = 0) :
    ∀ l : List String, (∀ x ∈ l, countChar c x = 0) →
      countChar c (joinStrings sep l) = 0
  | [], _ => rfl
  | [a], h => h a (List.mem_singleton_self a)
  | a :: b :: rest, h => by
    show countChar c (a ++ sep ++ joinStrings sep (b :: rest)) = 0
    rw [countChar_append, countChar_append, hsep,
      h a (List.mem_cons_self _ _),
      countChar_join_zero c sep hsep (b :: rest) (fun x hx => h x (List.mem_cons_of_mem _ hx))]

theorem countChar_join_replicate (c : Char) (sep x : String) (hsep : countChar c sep = 0) :
    ∀ n : Nat, countChar c (joinStrings sep (List.replicate n x)) = n * countChar c x
  | 0 => by simp [joinStrings, List.replicate, countChar]
  | 1 => by simp [joinStrings, List.replicate]
  | n + 2 => by
    show countChar c (x ++ sep ++ joinStrings sep (List.replicate (n + 1) x)) =
      (n + 2) * countChar c x
    rw [countChar_append, countChar_append, hsep,
      countChar_join_replicate c sep x hsep (n + 1)]
    ring

theorem length_filterMap_eq {α β : Type} (f : α → Option β) :
    ∀ l : List α, (l.filterMap f).length = (l.filter (fun a => (f a).isSome)).length
  | [] => rfl
  | a :: rest => by
    cases hf : f a with
    | none => simp [List.filterMap_cons, List.filter_cons, hf, length_filterMap_eq f rest]
    | some b => simp [List.filterMap_cons, List.filter_cons, hf, length_filterMap_eq f rest]

theorem sum_map_constant {α : Type} (f : α → Nat) (k : Nat) :
    ∀ l : List α, (∀ a ∈ l, f a = k) → (l.map f).sum = l.length * k
  | [], _ => by simp
  | a :: rest, h => by
    simp only [List.map_cons, List.sum_cons, List.length_cons,
      h a (List.mem_cons_self _ _),
      sum_map_constant f k rest (fun x hx => h x (List.mem_cons_of_mem _ hx))]
    ring

theorem nonNullLookup_ne_null {r : Record} {f : String} {v : GoValue}
    (h : nonNullLookup r f = some v) : v ≠ GoValue.null := by
  unfold nonNullLookup at h
  cases hl : List.lookup f r with
  | none => rw [hl] at h; exact absurd h (by simp)
  | some w =>
    rw [hl] at h
    cases w <;> simp_all <;> intro hc <;> simp [hc] at h

theorem countQ_bindvarString (schema : Schema) :
    countChar '?' ("(" ++ joinStrings ", " (schema.map (fun _ => "?")) ++ ")") =
      schema.length := by
  rw [countChar_append, countChar_append,
    List.map_const' schema "?",
    countChar_join_replicate '?' ", " "?" (by decide) schema.length]
  simp [show countChar '?' "(" = 0 from rfl, show countChar '?' "?" = 1 from rfl,
    show countChar '?' ")" = 0 from rfl]

theorem mem_insertFieldNames {schema : Schema} {x : String}
    (hx : x ∈ insertFieldNames schema) : ∃ p ∈ schema, x = Escape p.1 := by
  have : x ∈ schema.map (fun p => Escape p.1) :=
    (List.perm_insertionSort strLe _).subset hx
  rcases List.mem_map.mp this with ⟨p, hp, he⟩
  exact ⟨p, hp, he.symm⟩

/-- C3 (amended): the generated statement carries one full placeholder
group per record — `records × schemaFields` many `?`, regardless of which
fields each record populates — while the positional argument list gets,
per record and per schema field in the sorted order of the column list,
exactly the values of fields present with a non-null value; absent or
null fields contribute no argument and no `NULL` padding, so the argument
count equals the placeholder count exactly when every record populates
every schema field with a non-null value (a shared populated subset is
not enough: see the counterexample). -/
theorem insert_args_alignment (name : String) (schema : Schema) (records : Logs)
    (hname : countChar '?' name = 0)
    (hfields : ∀ p ∈ schema, countChar '?' p.1 = 0) :
    countChar '?' (InsertTableStatement name schema records).1 =
      records.length * schema.length ∧
    (InsertTableStatement name schema records).2 = records.flatMap (recordArgs schema) ∧
    (InsertTableStatement name schema records).2.length =
      (records.map (populatedCount schema)).sum ∧
    GoValue.null ∉ (InsertTableStatement name schema records).2 ∧
    ((∀ r ∈ records, populatedCount schema r = schema.length) →
      (InsertTableStatement name schema records).2.length =
        countChar '?' (InsertTableStatement name schema records).1) := by
  have hstmt : (InsertTableStatement name schema records).1 =
      "INSERT INTO `" ++ Escape name ++ "`(" ++
        ("`" ++ joinStrings "`, `" (insertFieldNames schema) ++ "`") ++ ") VALUES " ++
        joinStrings ", " (records.map (fun _ =>
          "(" ++ joinStrings ", " (schema.map (fun _ => "?")) ++ ")")) ++ ";" := rfl
  have hcount : countChar '?' (InsertTableStatement name schema records).1 =
      records.length * schema.length := by
    rw [hstmt]
    rw [countChar_append, countChar_append, countChar_append, countChar_append,
      countChar_append, countChar_append]
    rw [countQ_Escape, hname]
    rw [countChar_append, countChar_append]
    rw [countChar_join_zero '?' "`, `" (by decide) (insertFieldNames schema)
      (fun x hx => by
        rcases mem_insertFieldNames hx with ⟨p, hp, he⟩
        rw [he, countQ_Escape]
        exact hfields p hp)]
    rw [List.map_const' records _,
      countChar_join_replicate '?' ", " _ (by decide) records.length,
      countQ_bindvarString]
    simp [countChar]
  have hargs : (InsertTableStatement name schema records).2 =
      records.flatMap (recordArgs schema) := rfl
  have hlen : (InsertTableStatement name schema records).2.length =
      (records.map (populatedCount schema)).sum := by
    rw [hargs, List.length_flatMap]
    congr 1
    apply List.map_congr_left
    intro r _
    exact length_filterMap_eq (fun f => nonNullLookup r f) (insertFieldNames schema)
  refine ⟨hcount, hargs, hlen, ?_, ?_⟩
  · intro hmem
    rw [hargs] at hmem
    rcases List.mem_flatMap.mp hmem with ⟨r, _, hr⟩
    rcases List.mem_filterMap.mp hr with ⟨f, _, hf⟩
    exact nonNullLookup_ne_null hf rfl
  · intro hfull
    rw [hlen, hcount, sum_map_constant (populatedCount schema) schema.length records hfull]

/-- Witness for C3 at the repository's own three-record dog_registry batch
(every record populates every schema field). -/
theorem insert_args_alignment_witness :
    (InsertTableStatement "dog_registry"
      [("name", "string"), ("breed", "string"), ("weight", "int")]
      [[("name", GoValue.str "max"), ("breed", GoValue.str "chihuahua"), ("weight", GoValue.num 3)],
       [("name", GoValue.str "spot"), ("breed", GoValue.str "husky"), ("weight", GoValue.num 130)],
       [("name", GoValue.str "spike"), ("breed", GoValue.str "bulldog"), ("weight", GoValue.num 80)]]).2.length =
    countChar '?' (InsertTableStatement "dog_registry"
      [("name", "string"), ("breed", "string"), ("weight", "int")]
      [[("name", GoValue.str "max"), ("breed", GoValue.str "chihuahua"), ("weight", GoValue.num 3)],
       [("name", GoValue.str "spot"), ("breed", GoValue.str "husky"), ("weight", GoValue.num 130)],
       [("name", GoValue.str "spike"), ("breed", GoValue.str "bulldog"), ("weight", GoValue.num 80)]]).1 :=
  (insert_args_alignment "dog_registry"
    [("name", "string"), ("breed", "string"), ("weight", "int")]
    [[("name", GoValue.str "max"), ("breed", GoValue.str "chihuahua"), ("weight", GoValue.num 3)],
     [("name", GoValue.str "spot"), ("breed", GoValue.str "husky"), ("weight", GoValue.num 130)],
     [("name", GoValue.str "spike"), ("breed", GoValue.str "bulldog"), ("weight", GoValue.num 80)]]
    (by decide) (by decide)).2.2.2.2 (by decide)

theorem strLt_trans {a b c : String} (hab : strLt a b) (hbc : strLt b c) : strLt a c := by
  refine ⟨lexLe_trans hab.1 hbc.1, fun he => hab.2 ?_⟩
  subst he
  exact antisymm (r := strLe) hab.1 hbc.1

theorem groupGo_first : ∀ (rows : List CatalogRow) (cur : String) (cols : List ColumnDesc),
    ∃ cs t, groupGo cur cols rows = (cur, cs) :: t
  | [], _, cols => ⟨cols, [], rfl⟩
  | r :: rest, cur, cols => by
    unfold groupGo
    by_cases h : r.name = cur
    · rw [if_pos h]
      exact groupGo_first rest cur (cols ++ [mkColumn r])
    · rw [if_neg h]
      exact ⟨cols, _, rfl⟩

theorem groupGo_flatten : ∀ (rows : List CatalogRow) (cur : String) (cols : List ColumnDesc),
    ((groupGo cur cols rows).map Prod.snd).flatten = cols ++ rows.map mkColumn
  | [], _, cols => by simp [groupGo]
  | r :: rest, cur, cols => by
    unfold groupGo
    by_cases h : r.name = cur
    · rw [if_pos h, groupGo_flatten rest cur (cols ++ [mkColumn r])]
      simp
    · rw [if_neg h]
      simp only [List.map_cons, List.flatten_cons]
      rw [groupGo_flatten rest r.name [mkColumn r]]
      simp

theorem groupGo_mem_names : ∀ (rows : List CatalogRow) (cur : String)
    (cols : List ColumnDesc) (n : String),
    n ∈ (groupGo cur cols rows).map Prod.fst ↔ n = cur ∨ n ∈ rows.map CatalogRow.name
  | [], cur, cols, n => by simp [groupGo]
  | r :: rest, cur, cols, n => by
    unfold groupGo
    by_cases h : r.name = cur
    · rw [if_pos h]
      rw [groupGo_mem_names rest cur _ n]
      simp only [List.map_cons, List.mem_cons, h]
      tauto
    · rw [if_neg h]
      simp only [List.map_cons, List.mem_cons]
      rw [groupGo_mem_names rest r.name _ n]

theorem groupGo_chain : ∀ (rows : List CatalogRow) (cur : String) (cols : List ColumnDesc),
    List.Chain strLe cur (rows.map CatalogRow.name) →
    List.Chain' (fun a b : String × List ColumnDesc => strLt a.1 b.1) (groupGo cur cols rows)
  | [], _, cols, _ => by simp [groupGo]
  | r :: rest, cur, cols, hch => by
    rcases hch with _ | ⟨hle, hch⟩
    unfold groupGo
    by_cases h : r.name = cur
    · rw [if_pos h]
      exact groupGo_chain rest cur _ (h ▸ hch)
    · rw [if_neg h]
      rcases groupGo_first rest r.name [mkColumn r] with ⟨cs, t, heq⟩
      rw [heq]
      exact List.Chain'.cons ⟨hle, fun hc => h hc.symm⟩
        (heq ▸ groupGo_chain rest r.name [mkColumn r] hch)

/-- C9: given catalog rows delivered in ascending table-name order (the
query's `ORDER BY name ASC`), `DescribeDatabase` groups consecutive rows
that share a table name into one description: joining the groups' column
lists gives back exactly one column entry per catalog row in order, the
groups are strictly ascending in table name (hence one group per distinct
table name, in catalog order), a name occurs among the groups exactly
when some catalog row carries it, and a column's nullable flag is true
exactly when the catalog reports "YES". -/
theorem describe_database_grouping (rows : List CatalogRow)
    (hsorted : List.Chain' (fun a b => strLe a.name b.name) rows) :
    ((DescribeDatabase rows).map Prod.snd).flatten = rows.map mkColumn ∧
    List.Chain' (fun a b : String × List ColumnDesc => strLt a.1 b.1) (DescribeDatabase rows) ∧
    (∀ n, n ∈ (DescribeDatabase rows).map Prod.fst ↔ n ∈ rows.map CatalogRow.name) ∧
    ((DescribeDatabase rows).map Prod.fst).Nodup ∧
    (∀ r : CatalogRow, (mkColumn r).nullable = true ↔ r.nullable = "YES") := by
  have hnul : ∀ r : CatalogRow, (mkColumn r).nullable = true ↔ r.nullable = "YES" := by
    intro r
    simp [mkColumn]
  cases rows with
  | nil => exact ⟨rfl, by simp [DescribeDatabase], by simp [DescribeDatabase], by
      simp [DescribeDatabase], hnul⟩
  | cons r rest =>
    have hch : List.Chain strLe r.name (rest.map CatalogRow.name) :=
      (List.chain_map CatalogRow.name).mpr hsorted
    have hchain := groupGo_chain rest r.name [mkColumn r] hch
    refine ⟨?_, hchain, ?_, ?_, hnul⟩
    · show ((groupGo r.name [mkColumn r] rest).map Prod.snd).flatten = _
      rw [groupGo_flatten rest r.name [mkColumn r]]
      simp
    · intro n
      show n ∈ (groupGo r.name [mkColumn r] rest).map Prod.fst ↔ _
      rw [groupGo_mem_names rest r.name _ n]
      simp
    · haveI : IsTrans (String × List ColumnDesc) (fun a b => strLt a.1 b.1) :=
        ⟨fun _ _ _ hab hbc => strLt_trans hab hbc⟩
      have hpw := List.chain'_iff_pairwise.mp hchain
      show ((groupGo r.name [mkColumn r] rest).map Prod.fst).Nodup
      exact List.pairwise_map.mpr (hpw.imp (fun h => h.2))

/-- Witness for C9: the spec's dog_registry/cat_registry example, with
catalog rows in the catalog's name order. -/
theorem describe_database_grouping_witness :
    ((DescribeDatabase
      [⟨"databalancer", "cat_registry", "id", "NO", "int"⟩,
       ⟨"databalancer", "cat_registry", "age", "YES", "int"⟩,
       ⟨"databalancer", "dog_registry", "id", "NO", "int"⟩,
       ⟨"databalancer", "dog_registry", "breed", "YES", "text"⟩,
       ⟨"databalancer", "dog_registry", "name", "YES", "text"⟩,
       ⟨"databalancer", "dog_registry", "weight", "YES", "int"⟩]).map Prod.snd).flatten =
    List.map mkColumn
      [⟨"databalancer", "cat_registry", "id", "NO", "int"⟩,
       ⟨"databalancer", "cat_registry", "age", "YES", "int"⟩,
       ⟨"databalancer", "dog_registry", "id", "NO", "int"⟩,
       ⟨"databalancer", "dog_registry", "breed", "YES", "text"⟩,
       ⟨"databalancer", "dog_registry", "name", "YES", "text"⟩,
       ⟨"databalancer", "dog_registry", "weight", "YES", "int"⟩] :=
  (describe_database_grouping
    [⟨"databalancer", "cat_registry", "id", "NO", "int"⟩,
     ⟨"databalancer", "cat_registry", "age", "YES", "int"⟩,
     ⟨"databalancer", "dog_registry", "id", "NO", "int"⟩,
     ⟨"databalancer", "dog_registry", "breed", "YES", "text"⟩,
     ⟨"databalancer", "dog_registry", "name", "YES", "text"⟩,
     ⟨"databalancer", "dog_registry", "weight", "YES", "int"⟩]
    (by simp only [List.chain'_cons, List.chain'_singleton, and_true]; decide)).1

theorem lookup_filter_ne {f g : String} (hne : g ≠ f) :
    ∀ r : Record, List.lookup g (r.filter (fun p => p.1 != f)) = List.lookup g r
  | [] => rfl
  | (k, v) :: rest => by
    by_cases hk : k = f
    · have hgk : (g == k) = false := by
        simp only [beq_eq_false_iff_ne, ne_eq]
        intro hh
        exact hne (hk ▸ hh)
      simp only [List.filter_cons, show (((k, v).1 != f) = false) by simp [hk],
        Bool.false_eq_true, if_false]
      rw [lookup_filter_ne hne rest]
      simp [List.lookup, hgk]
    · simp only [List.filter_cons, show (((k, v).1 != f) = true) by simp [hk], if_true]
      simp only [List.lookup]
      cases hgk : (g == k) <;> simp [lookup_filter_ne hne rest]

theorem nonNullLookup_filter {f g : String} (hne : g ≠ f) (r : Record) :
    nonNullLookup (r.filter (fun p => p.1 != f)) g = nonNullLookup r g := by
  unfold nonNullLookup
  rw [lookup_filter_ne hne r]

theorem escape_list_length : ∀ l : List Char,
    ((l.map escapeChar).flatten).length =
      l.length + l.countP (fun c => (escapeCode c).isSome)
  | [] => rfl
  | c :: cs => by
    simp only [List.map_cons, List.flatten_cons, List.length_append,
      escape_list_length cs, List.countP_cons, List.length_cons]
    unfold escapeChar
    cases h : escapeCode c <;> simp [h] <;> omega

theorem Escape_ne_of_escaped {f : String}
    (h : ∃ c ∈ f.data, (escapeCode c).isSome) : Escape f ≠ f := by
  intro he
  have hlen : (Escape f).data.length =
      f.data.length + f.data.countP (fun c => (escapeCode c).isSome) :=
    escape_list_length f.data
  have hpos : 0 < f.data.countP (fun c => (escapeCode c).isSome) := by
    rcases h with ⟨c, hc, hs⟩
    exact List.countP_pos_iff.mpr ⟨c, hc, by simp [hs]⟩
  rw [he] at hlen
  omega

/-- C10: `InsertTableStatement` looks each record value up under the
escaped field name, so a populated field whose name contains a character
the escaper rewrites is never found: its non-null value contributes
nothing to the argument list (the record behaves exactly as if the field
were absent) while the record still contributes its full placeholder
group — misaligning arguments and placeholders even for a single-record
homogeneous batch, as the concrete `a'b` instance shows. -/
theorem insert_escaped_name_lookup (schema : Schema) (r : Record) (f : String)
    (v : GoValue)
    (_hlook : List.lookup f r = some v) (_hv : v ≠ GoValue.null)
    (hesc : ∃ c ∈ f.data, (escapeCode c).isSome)
    (hnot : f ∉ insertFieldNames schema) :
    Escape f ≠ f ∧
    recordArgs schema r = recordArgs schema (r.filter (fun p => p.1 != f)) ∧
    InsertTableStatement "t" [("a'b", "string")] [[("a'b", GoValue.str "x")]] =
      ("INSERT INTO `t`(`a\\'b`) VALUES (?);", []) := by
  refine ⟨Escape_ne_of_escaped hesc, ?_, by decide⟩
  unfold recordArgs
  exact List.filterMap_congr (fun g hg =>
    (nonNullLookup_filter (fun he => hnot (by rw [← he]; exact hg)) r).symm)

/-- Witness for C10 at the concrete quoted field name. -/
theorem insert_escaped_name_lookup_witness : Escape "a'b" ≠ "a'b" :=
  (insert_escaped_name_lookup [("a'b", "string")] [("a'b", GoValue.str "x")]
    "a'b" (GoValue.str "x") rfl (by decide) (by decide) (by decide)).1
